import Mathlib

set_option linter.unusedVariables false

/-!
Shallow embedding of the PilotQA AI runtime client (TypeScript) and proofs
checking its natural-language specification against the code.

Embedded components:
* the action pipeline (strict schema validation with selector-kind
  inference, normalizer chain, validator chain, mapper chain) from
  src/PilotQA_AI/types.ts, the normalizer/validator/mapper modules and the
  engine loop in src/unnamed/part_000;
* the LLM fallback gateway from src/PilotQA_AI/llm.ts;
* the page cache and navigation detector from src/PilotQA_AI/cache.ts and
  src/PilotQA_AI/usage.ts;
* the locator resolver and the engine retry loop from src/unnamed/part_000;
* the vague-phrase stripper stripVague from src/unnamed/part_000.

Browser and network effects (element queries, model calls, timers) are
inherently external input and are passed in as explicit parameters or
oracle functions; all decision logic around them is translated from the
source.
-/

/-- Selector interpretation kinds, from src/PilotQA_AI/types.ts:
SelectorType is the union of the strings css, xpath, text and none. -/
inductive SelectorType where
  | css
  | xpath
  | text
  | none
deriving DecidableEq, Repr

/-- Untrusted action record parsed from model output, from
src/PilotQA_AI/types.ts (RawLLMAction). The TS index signature for unknown
keys is dropped: the strict schema rejects unknown keys anyway. Numeric
fields are embedded as Int, since the schema only accepts integers. -/
structure RawLLMAction where
  action : String
  selector : Option String
  selectorType : Option SelectorType
  timeout : Option Int
  duration : Option Int
  text : Option String
  expectedContent : Option String
  reason : Option String
  url : Option String
  pattern : Option String
deriving DecidableEq, Repr

/-- Executable action: a RawLLMAction extended with the canonical action
tag, from src/PilotQA_AI/types.ts (PilotQAAIAction). -/
structure PilotQAAIAction extends RawLLMAction where
  normalizedAction : String
deriving Repr

/-- Structural test that pre is a leading substring of s (the anchored
regex tests of the source), written over character lists so that it
evaluates by kernel reduction. -/
def charsLead : List Char → List Char → Bool
  | [], _ => true
  | _ :: _, [] => false
  | p :: ps, c :: cs => p == c && charsLead ps cs

/-- String version of charsLead. -/
def strLeads (pre s : String) : Bool := charsLead pre.data s.data

/-- Strip leading and trailing whitespace, as JS String.prototype.trim
does on ASCII input, written structurally over the character list. -/
def trimChars (cs : List Char) : List Char :=
  ((cs.dropWhile Char.isWhitespace).reverse.dropWhile Char.isWhitespace).reverse

/-- String version of trimChars. -/
def jsTrim (s : String) : String := String.mk (trimChars s.data)

/-- Lower-case a string character by character, as JS toLowerCase does on
ASCII input. -/
def lowerString (s : String) : String := String.mk (s.data.map Char.toLower)

/-- Selector-kind inference used by the schema transform, from
coerceSelectorType in the schemas module: test for a leading
xpath= or // (xpath), then for a leading dot, hash, bracket or colon
(css), then the empty selector (none), otherwise text. -/
def inferSelectorType (s : String) : SelectorType :=
  if strLeads "xpath=" s || strLeads "//" s then SelectorType.xpath
  else if strLeads "." s || strLeads "#" s || strLeads "[" s || strLeads ":" s then
    SelectorType.css
  else if s = "" then SelectorType.none
  else SelectorType.text

/-- Written from the specification text for the refinement comparison of
claim C2: the empty string maps to none; a string led by xpath= or // maps
to xpath; a string led by a dot, hash, bracket or colon maps to css; every
other string maps to text. -/
def specSelectorKind (s : String) : SelectorType :=
  if s = "" then SelectorType.none
  else if strLeads "xpath=" s || strLeads "//" s then SelectorType.xpath
  else if strLeads "." s || strLeads "#" s || strLeads "[" s || strLeads ":" s then
    SelectorType.css
  else SelectorType.text

/-- Schema transform step: when selectorType is absent it is inferred from
the selector string (absent selector behaves as the empty string, as in
the source expression out.selector-or-empty). From coerceSelectorType. -/
def coerceSelectorType (a : RawLLMAction) : RawLLMAction :=
  match a.selectorType with
  | some _ => a
  | Option.none => { a with selectorType := some (inferSelectorType (a.selector.getD "")) }

/-- Zod check z.number().int().positive() on an optional field. -/
def positiveIntOk (o : Option Int) : Bool :=
  match o with
  | some n => decide (0 < n)
  | Option.none => true

/-- Zod transform z.string().trim() on the optional selector field. -/
def selectorTrimmed (a : RawLLMAction) : RawLLMAction :=
  match a.selector with
  | some s => { a with selector := some (jsTrim s) }
  | Option.none => a

/-- ActionSchemaBase from the schemas module: action must be a non-empty
string; selector, when present, is trimmed and must be non-empty; timeout
and duration must be positive integers; url must be a well-formed URL.
URL well-formedness is a library call in the source and is passed in as
the parameter isValidUrl. The strict unknown-key rejection is structural
here (the record type is closed). -/
def actionSchemaChecks (isValidUrl : String → Bool) (b : RawLLMAction) :
    Except String RawLLMAction :=
  if b.action = "" then Except.error "action must be non-empty"
  else if (match b.selector with | some s => s == "" | Option.none => false) = true then
    Except.error "selector must be non-empty after trim"
  else if !positiveIntOk b.timeout then Except.error "timeout must be a positive integer"
  else if !positiveIntOk b.duration then Except.error "duration must be a positive integer"
  else if (match b.url with | some u => !isValidUrl u | Option.none => false) = true then
    Except.error "url must be a valid URL"
  else Except.ok b

/-- ActionSchemaBase applies the selector trim transform, then the field
checks. -/
def actionSchemaBase (isValidUrl : String → Bool) (a : RawLLMAction) :
    Except String RawLLMAction :=
  actionSchemaChecks isValidUrl (selectorTrimmed a)

/-- ActionSchema = ActionSchemaBase.transform(coerceSelectorType). -/
def actionSchemaParse (isValidUrl : String → Bool) (a : RawLLMAction) :
    Except String RawLLMAction :=
  Except.map coerceSelectorType (actionSchemaBase isValidUrl a)

/-- ActionsSchema = z.array(ActionSchema): every element must parse. -/
def actionsSchemaParse (isValidUrl : String → Bool) :
    List RawLLMAction → Except String (List RawLLMAction)
  | [] => Except.ok []
  | a :: rest =>
    match actionSchemaParse isValidUrl a, actionsSchemaParse isValidUrl rest with
    | Except.ok b, Except.ok l => Except.ok (b :: l)
    | Except.error e, _ => Except.error e
    | _, Except.error e => Except.error e

/-- Action-name alias table of the first normalizer in the normalizers
module. -/
def normalizerAliasMap : List (String × String) :=
  [("press", "click"), ("tap", "click"), ("submit", "click"),
   ("checkvisibility", "assertVisible"), ("verifyvisible", "assertVisible"),
   ("verifyinvisible", "assertNotVisible"), ("hidecheck", "assertNotVisible"),
   ("reloadpage", "reload"), ("refresh", "reload"), ("clearcache", "clearCache"),
   ("waitvisible", "waitForVisible"), ("waithidden", "waitForHidden")]

/-- Lower-case the action name and remove all whitespace, as the source
does before the alias lookup. -/
def stripWhitespaceLower (s : String) : String :=
  String.mk ((s.data.map Char.toLower).filter (fun c => !c.isWhitespace))

/-- First normalizer: rename aliased action names. -/
def normalizeActionAlias (raw : RawLLMAction) : RawLLMAction :=
  if stripWhitespaceLower raw.action = "" then raw
  else
    match List.lookup (stripWhitespaceLower raw.action) normalizerAliasMap with
    | some target => { raw with action := target }
    | Option.none => raw

/-- Action kinds that need no selector, shared by the second normalizer
and the first validator (both modules repeat this list verbatim). -/
def noSelector : List String :=
  ["wait", "reload", "clearCache", "waitForNavigation", "waitForURL"]

/-- Second normalizer: when selectorType is still absent, default it to
none for a missing selector or a selector-less action kind, else text. -/
def normalizeDefaultSelectorType (raw : RawLLMAction) : RawLLMAction :=
  match raw.selectorType with
  | some _ => raw
  | Option.none =>
    let t := if (raw.selector.getD "" == "") || noSelector.contains raw.action then
      SelectorType.none else SelectorType.text
    { raw with selectorType := some t }

/-- Default normalizer chain (both entries always return the action). -/
def actionNormalizers : List (RawLLMAction → Option RawLLMAction) :=
  [fun raw => some (normalizeActionAlias raw), fun raw => some (normalizeDefaultSelectorType raw)]

/-- Engine-side normalizer loop: stop as soon as a normalizer vetoes. -/
def runNormalizers (ns : List (RawLLMAction → Option RawLLMAction))
    (raw : RawLLMAction) : Option RawLLMAction :=
  ns.foldl (fun cur n => cur.bind n) (some raw)

/-- JS truthiness of the optional selector string. -/
def selectorTruthy (o : Option String) : Bool := !(o.getD "" == "")

/-- JS condition no-text-or-blank-text used by the third validator and the
pre-parsed-text injection. -/
def textBlankJS (o : Option String) : Bool :=
  match o with
  | some t => t == "" || jsTrim t == ""
  | Option.none => true

/-- First validator: a selector-requiring action kind must carry a
selector. -/
def validatorSelectorRequired (act : RawLLMAction) : Except String RawLLMAction :=
  if !noSelector.contains act.action && !selectorTruthy act.selector then
    Except.error ("Action \"" ++ act.action ++ "\" missing selector")
  else Except.ok act

/-- JS condition duration-undefined-or-nonpositive of the second
validator. -/
def durationMissingOrNonPositive (o : Option Int) : Bool :=
  match o with
  | some d => decide (d ≤ 0)
  | Option.none => true

/-- Second validator: coerce a missing or non-positive wait duration
to 1. -/
def validatorWaitDuration (act : RawLLMAction) : Except String RawLLMAction :=
  if act.action == "wait" && durationMissingOrNonPositive act.duration then
    Except.ok { act with duration := some 1 }
  else Except.ok act

/-- Third validator: a type action must carry non-blank text. -/
def validatorTypeText (act : RawLLMAction) : Except String RawLLMAction :=
  if act.action == "type" && textBlankJS act.text then
    Except.error ("Action \"type\" missing text for selector \"" ++ act.selector.getD "" ++ "\"")
  else Except.ok act

/-- Default validator chain, in registration order. -/
def actionValidators : List (RawLLMAction → Except String RawLLMAction) :=
  [validatorSelectorRequired, validatorWaitDuration, validatorTypeText]

/-- Engine-side validator loop: run every validator in order; a thrown
error aborts the round. In-place mutation is modelled by threading the
updated record. -/
def runValidators (act : RawLLMAction) : Except String RawLLMAction :=
  actionValidators.foldlM (fun cur v => v cur) act

/-- Base mapper from src/PilotQA_AI/mappers.ts: spread the raw action and
attach normalizedAction equal to its action. -/
def baseMapper (raw : RawLLMAction) : Option PilotQAAIAction :=
  some { toRawLLMAction := raw, normalizedAction := raw.action }

/-- Default mapper registry: only the base mapper. -/
def actionMappers : List (RawLLMAction → Option PilotQAAIAction) := [baseMapper]

/-- Engine-side mapper loop: first mapper returning a value wins. -/
def runMappers (ms : List (RawLLMAction → Option PilotQAAIAction))
    (raw : RawLLMAction) : Option PilotQAAIAction :=
  ms.findSome? (fun m => m raw)

/-- Pre-parser text injection (engine loop): a type action with blank text
whose selector was pre-typed by the inline parser gets that text. The
typedByParser map is an association list keyed by lower-cased selector. -/
def injectPreParsedOne (typed : List (String × String)) (a : RawLLMAction) : RawLLMAction :=
  if a.action == "type" && textBlankJS a.text && selectorTruthy a.selector then
    match List.lookup (lowerString (a.selector.getD "")) typed with
    | some t => { a with text := some t }
    | Option.none => a
  else a

/-- Map the injection over the parsed list. -/
def injectPreParsedText (typed : List (String × String)) (acts : List RawLLMAction) :
    List RawLLMAction :=
  acts.map (injectPreParsedOne typed)

/-- Drop type actions whose field was already executed by the inline
pre-parser. -/
def dropAlreadyTyped (typed : List (String × String)) (acts : List RawLLMAction) :
    List RawLLMAction :=
  acts.filter (fun a =>
    !(a.action == "type" && selectorTruthy a.selector &&
      (List.lookup (lowerString (a.selector.getD "")) typed).isSome))

/-- JS truthiness of the optional text string. -/
def textTruthy (o : Option String) : Bool := !(o.getD "" == "")

/-- Discard type actions without text (engine loop). -/
def dropTextlessType (acts : List RawLLMAction) : List RawLLMAction :=
  acts.filter (fun a => a.action != "type" || textTruthy a.text)

/-- One action through normalizers, validators and mappers, as in the
engine loop body: a vetoed or unmapped action yields no output, a
validator error aborts. -/
def processOneAction (raw : RawLLMAction) : Except String (Option PilotQAAIAction) :=
  match runNormalizers actionNormalizers raw with
  | Option.none => Except.ok Option.none
  | some cur =>
    match runValidators cur with
    | Except.error e => Except.error e
    | Except.ok validated => Except.ok (runMappers actionMappers validated)

/-- The engine loop over the parsed action list, building finalActions. -/
def buildFinalActions : List RawLLMAction → Except String (List PilotQAAIAction)
  | [] => Except.ok []
  | raw :: rest =>
    match processOneAction raw with
    | Except.error e => Except.error e
    | Except.ok mapped =>
      match buildFinalActions rest with
      | Except.error e => Except.error e
      | Except.ok tail =>
        Except.ok (match mapped with | some m => m :: tail | Option.none => tail)

/-- The action pipeline from a JSON-parsed action array to the final
executable list: schema validation with selector-kind inference, the
pre-parser text injection and its two filters, then the
normalizer-validator-mapper chains, failing when the result is empty.
JSON text parsing and code-fence stripping happen upstream of this
function (a parse failure produces no action list at all). -/
def actionPipeline (isValidUrl : String → Bool) (typedByParser : List (String × String))
    (arr : List RawLLMAction) : Except String (List PilotQAAIAction) :=
  match actionsSchemaParse isValidUrl arr with
  | Except.error e => Except.error e
  | Except.ok parsed =>
    match buildFinalActions
        (dropTextlessType (dropAlreadyTyped typedByParser
          (injectPreParsedText typedByParser parsed))) with
    | Except.error e => Except.error e
    | Except.ok finalActions =>
      if finalActions.isEmpty then Except.error "No actions parsed from LLM response."
      else Except.ok finalActions

/-- Nullish-coalescing helper clamp from src/PilotQA_AI/utils.ts:
v ?? d. -/
def clamp {α : Type} (v : Option α) (d : α) : α := v.getD d

/-- Milliseconds slept by the wait dispatch arm of the engine:
page.waitForTimeout(clamp(action.duration, 1) * 1000). -/
def waitSleepMs (a : PilotQAAIAction) : Int := clamp a.duration 1 * 1000

/-- Outcome of one try-block round of the engine main loop (Planning plus
Executing), abstracted as an oracle: the body either completes with a new
remaining command (optionally breaking out of the loop), or throws. -/
inductive RoundOutcome where
  | success (newRemaining : String) (exitLoop : Bool)
  | failure (err : String)

/-- Fixed retry backoff of the engine catch branch, in milliseconds:
page.waitForTimeout(900). -/
def RETRY_BACKOFF_MS : Nat := 900

/-- Fatal message raised once retries are exhausted, embedding the last
underlying error message. -/
def retryFailureMessage (maxRetries : Nat) (lastErr : String) : String :=
  "Failed after " ++ toString maxRetries ++ " attempts: " ++ lastErr

/-- The catch branch of the engine main loop: increment retryCount, raise
the fatal message when it reaches maxRetries, otherwise report the new
retryCount and the fixed 900 ms backoff wait. -/
def retryStep (maxRetries retryCount : Nat) (errMsg : String) : Except String (Nat × Nat) :=
  if maxRetries ≤ retryCount + 1 then Except.error (retryFailureMessage maxRetries errMsg)
  else Except.ok (retryCount + 1, RETRY_BACKOFF_MS)

/-- The engine main loop over round outcomes: loop while the remaining
command is non-empty and retryCount is below maxRetries; a successful
round resets retryCount to 0 and continues on the new remainder (or
breaks); a failing round goes through the catch branch, keeping the same
remaining command. -/
def engineLoop (maxRetries : Nat) :
    List RoundOutcome → String → Nat → Except String String
  | [], remaining, _ => Except.ok remaining
  | RoundOutcome.success r exitLoop :: rest, remaining, retryCount =>
    if remaining.length = 0 ∨ maxRetries ≤ retryCount then Except.ok remaining
    else if exitLoop then Except.ok r
    else engineLoop maxRetries rest r 0
  | RoundOutcome.failure e :: rest, remaining, retryCount =>
    if remaining.length = 0 ∨ maxRetries ≤ retryCount then Except.ok remaining
    else
      match retryStep maxRetries retryCount e with
      | Except.error m => Except.error m
      | Except.ok (rc, _) => engineLoop maxRetries rest remaining rc

/-- LLM providers from src/PilotQA_AI/llm.ts. -/
inductive LLMProvider where
  | gemini
  | openai
  | anthropic
deriving DecidableEq, Repr

/-- A provider candidate: provider plus model identifier. -/
structure LLMConfig where
  provider : LLMProvider
  model : String
deriving DecidableEq, Repr

/-- The ordered candidate list built from the configured credentials,
from availableLLMs: three gemini models (most capable first) when the
gemini key is set, then gpt-4o-mini when the openai key is set, then
claude-3-haiku when the anthropic key is set. -/
def availableLLMs (hasKey : LLMProvider → Bool) : List LLMConfig :=
  (if hasKey LLMProvider.gemini then
    [⟨LLMProvider.gemini, "gemini-2.5-flash"⟩, ⟨LLMProvider.gemini, "gemini-2.0-flash"⟩,
     ⟨LLMProvider.gemini, "gemini-1.5-flash"⟩]
   else []) ++
  (if hasKey LLMProvider.openai then [⟨LLMProvider.openai, "gpt-4o-mini"⟩] else []) ++
  (if hasKey LLMProvider.anthropic then [⟨LLMProvider.anthropic, "claude-3-haiku-20240307"⟩]
   else [])

/-- Result of one provider invocation, abstracted as an oracle (the
network call is external input). -/
inductive AttemptResult where
  | success (resp : String)
  | failure (err : String)

/-- Successful gateway result: the response text and the model that
produced it (timing and token estimates are elided). -/
structure LLMSuccess where
  response : String
  modelName : String
deriving DecidableEq, Repr

/-- Message text of the optional last error: JS prints undefined when a
null lastError is interpolated. -/
def lastErrorMessage : Option String → String
  | some m => m
  | Option.none => "undefined"

/-- The candidate loop of invokeLLMWithFallback: skip candidates without
credentials (without recording a failure), return on the first success,
record the error and advance on failure, and raise only after the whole
list is exhausted, embedding the last error. -/
def invokeLLMAux (hasKey : LLMProvider → Bool) (attempt : LLMConfig → AttemptResult) :
    List LLMConfig → Option String → Except String LLMSuccess
  | [], lastError =>
    Except.error ("All LLM models failed. Last error: " ++ lastErrorMessage lastError)
  | cfg :: rest, lastError =>
    if !hasKey cfg.provider then invokeLLMAux hasKey attempt rest lastError
    else
      match attempt cfg with
      | AttemptResult.success r => Except.ok ⟨r, cfg.model⟩
      | AttemptResult.failure e => invokeLLMAux hasKey attempt rest (some e)

/-- invokeLLMWithFallback: run the candidate loop over availableLLMs with
no recorded error. -/
def invokeLLMWithFallback (hasKey : LLMProvider → Bool)
    (attempt : LLMConfig → AttemptResult) : Except String LLMSuccess :=
  invokeLLMAux hasKey attempt (availableLLMs hasKey) Option.none

/-- The module-level cache record from src/PilotQA_AI/cache.ts. -/
structure PageCacheState where
  htmlContent : Option String
  htmlTimestamp : Nat
  llmResponse : Option String
  llmCommand : String
  currentUrl : String
deriving DecidableEq, Repr

/-- Freshness window CACHE_DURATION = 5000 ms. -/
def CACHE_DURATION : Nat := 5000

/-- JS truthiness of the cached HTML field (null or the empty string are
falsy). -/
def cacheTruthy (o : Option String) : Bool :=
  match o with
  | some s => !(s == "")
  | Option.none => false

/-- getOptimizedHTML from the navigation module, with the browser-side
extraction and sanitisation abstracted as the freshHTML input (it is pure
page I/O): serve the cached excerpt only when caching is on, the stored
URL equals the live URL, cached content is present and the timestamp is
inside the freshness window; otherwise produce the fresh excerpt and,
when caching is on, store it with the current timestamp and URL.
Timestamps are Nats; truncated subtraction agrees with the JS comparison
now - timestamp < 5000 in every case (a negative JS difference and a
truncated-to-zero Nat difference are both below the window). -/
def getOptimizedHTML (c : PageCacheState) (pageUrl : String) (now : Nat)
    (freshHTML : String) (useCache : Bool) : String × PageCacheState :=
  if useCache && (c.currentUrl == pageUrl) && cacheTruthy c.htmlContent &&
      decide (now - c.htmlTimestamp < CACHE_DURATION) then
    (c.htmlContent.getD "", c)
  else
    (freshHTML,
     if useCache then
       { c with htmlContent := some freshHTML, htmlTimestamp := now, currentUrl := pageUrl }
     else c)

/-- Navigation state threaded by the engine. -/
structure NavState where
  currentPageUrl : String
  navigationCount : Nat
deriving DecidableEq, Repr

/-- detectNavigationChange from the navigation module: when the observed
URL differs from the recorded one, bump the navigation count, record the
new URL and, when caching is on, invalidate the whole cache (the load
waits are timing-only and elided). Returns whether navigation was
detected together with the updated state and cache. -/
def detectNavigationChange (pageUrl : String) (st : NavState) (c : PageCacheState)
    (useCache : Bool) : Bool × NavState × PageCacheState :=
  if pageUrl ≠ st.currentPageUrl then
    let st2 : NavState := ⟨pageUrl, st.navigationCount + 1⟩
    let c2 := if useCache then
      { c with htmlContent := Option.none, htmlTimestamp := 0, currentUrl := pageUrl,
               llmResponse := Option.none, llmCommand := "" }
      else c
    (true, st2, c2)
  else (false, st, c)

/-- One frame of the abstract page: a count of elements matching a raw
locator query string, and the text-selector heuristic search (the ranked
candidate pile of the text branch plus the input-field resolution) as an
abstract frame capability, since it queries live accessibility and DOM
state. The none, css and xpath branches, which the settled claims are
about, are translated from the source below. -/
structure FrameModel where
  count : String → Nat
  textLoc : PilotQAAIAction → Option String

/-- The abstract page: the main document plus its sub-frames in document
order. -/
structure PageModel where
  main : FrameModel
  frames : List FrameModel

/-- A resolved locator: which frame it was found in, the query it was
built from, and whether the engine narrowed it with a first() call. -/
structure ResolvedLocator where
  frameIdx : Nat
  query : String
  isFirst : Bool
deriving DecidableEq, Repr

/-- The makeIn closure of resolveLocator: css uses the selector string
directly, xpath prefixes it with xpath=, text returns null for a blank
trimmed selector and otherwise runs the heuristic pile; an absent
selector kind throws, which the caller catches, so it behaves as no
locator here. -/
def makeInFrame (f : FrameModel) (a : PilotQAAIAction) : Option String :=
  match a.selectorType with
  | some SelectorType.css => some (a.selector.getD "")
  | some SelectorType.xpath => some ("xpath=" ++ a.selector.getD "")
  | some SelectorType.text =>
    if jsTrim (a.selector.getD "") = "" then Option.none else f.textLoc a
  | _ => Option.none

/-- Try one frame: build the locator and keep it (narrowed by first())
when it matches at least one element. -/
def tryFrameLocator (idx : Nat) (f : FrameModel) (a : PilotQAAIAction) :
    Option ResolvedLocator :=
  match makeInFrame f a with
  | some q => if f.count q > 0 then some ⟨idx, q, true⟩ else Option.none
  | Option.none => Option.none

/-- Scan the sub-frames in order for the first non-empty match. -/
def scanFrames (a : PilotQAAIAction) : Nat → List FrameModel → Option ResolvedLocator
  | _, [] => Option.none
  | idx, f :: rest =>
    match tryFrameLocator idx f a with
    | some l => some l
    | Option.none => scanFrames a (idx + 1) rest

/-- resolveLocator from the engine module: selector kind none resolves to
null immediately; otherwise the main frame is tried first and then every
sub-frame in order, returning the first locator with a non-zero element
count, or null when nothing matched anywhere (no site-specific
fallback). -/
def resolveLocator (page : PageModel) (a : PilotQAAIAction) : Option ResolvedLocator :=
  if a.selectorType = some SelectorType.none then Option.none
  else
    match tryFrameLocator 0 page.main a with
    | some l => some l
    | Option.none => scanFrames a 1 page.frames

/-- The double-quote character, written by code point to keep character
literals simple. -/
def quoteChar : Char := Char.ofNat 34

/-- The single-quote character, written by code point. -/
def aposChar : Char := Char.ofNat 39

/-- Character class of the trailing-junk tail appended to every vague
pattern in stripVague: whitespace, both quotes, period, exclamation mark,
comma, semicolon and colon. -/
def isTrailPunct (c : Char) : Bool :=
  c.isWhitespace || c == quoteChar || c == aposChar || c == '.' || c == '!' ||
    c == ',' || c == ';' || c == ':'

/-- Character class of the final punctuation-only cleanup in stripVague:
whitespace, both quotes, period, comma, semicolon and colon (no
exclamation mark). -/
def isFinalPunct (c : Char) : Bool :=
  c.isWhitespace || c == quoteChar || c == aposChar || c == '.' ||
    c == ',' || c == ';' || c == ':'

/-- One of the two quote characters. -/
def isQuoteChar (c : Char) : Bool := c == quoteChar || c == aposChar

/-- Expand a sequence of alternative-lists into all concatenations; each
VAGUE_ENDING_PATTERNS regex is a concatenation of literal words, optional
groups and two-way alternations, so its language is this finite set. -/
def expandParts (parts : List (List String)) : List String :=
  parts.foldl (fun acc part => acc.flatMap (fun a => part.map (fun p => a ++ p))) [""]

/-- Pattern 1: check if (the )?page (is )?(being )?displayed( correctly)?. -/
def vaguePattern1 : List String :=
  expandParts [["check if "], ["", "the "], ["page "], ["", "is "], ["", "being "],
    ["displayed"], ["", " correctly"]]

/-- Pattern 2: verify (that )?(the )?page (is )?(being )?displayed( correctly)?. -/
def vaguePattern2 : List String :=
  expandParts [["verify "], ["", "that "], ["", "the "], ["page "], ["", "is "],
    ["", "being "], ["displayed"], ["", " correctly"]]

/-- Pattern 3: ensure (the )?page (is )?displayed( correctly)?. -/
def vaguePattern3 : List String :=
  expandParts [["ensure "], ["", "the "], ["page "], ["", "is "], ["displayed"],
    ["", " correctly"]]

/-- Pattern 4: verify (that )?everything looks (good|correct). -/
def vaguePattern4 : List String :=
  expandParts [["verify "], ["", "that "], ["everything looks "], ["good", "correct"]]

/-- Pattern 5: check (the )?page( is (ok|correct))?. -/
def vaguePattern5 : List String :=
  expandParts [["check "], ["", "the "], ["page"], ["", " is ok", " is correct"]]

/-- Pattern 6: verify page. -/
def vaguePattern6 : List String := ["verify page"]

/-- Pattern 7: confirm (you|we) are on (the )?(right|correct) page. -/
def vaguePattern7 : List String :=
  expandParts [["confirm "], ["you", "we"], [" are on "], ["", "the "],
    ["right", "correct"], [" page"]]

/-- Pattern 8: verify product (page|details) (is )?displayed. -/
def vaguePattern8 : List String :=
  expandParts [["verify product "], ["page ", "details "], ["", "is "], ["displayed"]]

/-- The VAGUE_ENDING_PATTERNS list, in source order, each regex replaced
by the finite set of phrases it can match (all lower-case; the i flag is
handled by lower-casing the input). -/
def vagueEndingPatterns : List (List String) :=
  [vaguePattern1, vaguePattern2, vaguePattern3, vaguePattern4, vaguePattern5,
   vaguePattern6, vaguePattern7, vaguePattern8]

/-- Does the regex core-then-trailing-junk-then-end-of-string match at
this position of the (lower-cased) input: some phrase of the pattern is
consumed exactly here and only trailing punctuation remains. -/
def vagueMatchHere (exps : List (List Char)) (low : List Char) : Bool :=
  exps.any (fun e => decide (low.take e.length = e) && (low.drop e.length).all isTrailPunct)

/-- Leftmost starting index of a match, mirroring the JS regex engine
scanning start positions left to right. -/
def vagueFirstMatchIdx (exps : List (List Char)) : List Char → Option Nat
  | [] => Option.none
  | c :: rest =>
    if vagueMatchHere exps (c :: rest) then some 0
    else (vagueFirstMatchIdx exps rest).map (fun i => i + 1)

/-- One loop iteration of stripVague: replace the first (leftmost) match
of pattern-plus-trailing-junk-anchored-at-end with the empty string, then
trim. Since every match extends to the end of the string, the replacement
keeps exactly the characters before the match start. -/
def applyVaguePattern (exps : List String) (s : String) : String :=
  match vagueFirstMatchIdx (exps.map (fun e => e.data)) (s.data.map Char.toLower) with
  | some i => jsTrim (String.mk (s.data.take i))
  | Option.none => jsTrim s

/-- Fuel-driven worker collapsing every run of two or more quote
characters into one double quote, as the global replace of the quote-run
regex does; runs of length one are kept. The fuel is the input length,
which every step strictly consumes. -/
def collapseQuotesGo : Nat → List Char → List Char
  | 0, cs => cs
  | _ + 1, [] => []
  | fuel + 1, c :: rest =>
    if isQuoteChar c then
      match rest with
      | d :: rest2 =>
        if isQuoteChar d then quoteChar :: collapseQuotesGo fuel (rest2.dropWhile isQuoteChar)
        else c :: collapseQuotesGo fuel rest
      | [] => [c]
    else c :: collapseQuotesGo fuel rest

/-- Collapse quote runs in a string. -/
def collapseQuotes (s : String) : String :=
  String.mk (collapseQuotesGo s.data.length s.data)

/-- The whole-string punctuation-only test of the final cleanup regex
(one or more characters of the class, anchored at both ends). -/
def isPunctOnlyStr (s : String) : Bool :=
  !(s.data.isEmpty) && s.data.all isFinalPunct

/-- stripVague from the engine module: the empty command stays empty;
otherwise trim, remove each vague ending pattern in order (first match
each, anchored at the end through the trailing-junk class), collapse
duplicate quoting, and clear a string that is only punctuation. -/
def stripVague (command : String) : String :=
  if command = "" then ""
  else
    let out := jsTrim command
    let out := vagueEndingPatterns.foldl (fun o exps => applyVaguePattern exps o) out
    let out := collapseQuotes out
    if isPunctOnlyStr out then "" else out

/-! ## Concrete examples used by counterexamples and witnesses -/

/-- URL validity oracle accepting everything (no example carries a url). -/
def anyUrlValid : String → Bool := fun _ => true

/-- A raw click action carrying an explicit selectorType none together
with a selector, exactly as the model may produce it. -/
def rawClickExplicitNone : RawLLMAction :=
  ⟨"click", some "#x", some SelectorType.none, Option.none, Option.none, Option.none,
   Option.none, Option.none, Option.none, Option.none⟩

/-- The pipeline output for rawClickExplicitNone. -/
def outClickExplicitNone : PilotQAAIAction :=
  { toRawLLMAction := rawClickExplicitNone, normalizedAction := "click" }

/-- A raw wait action with no duration and no selector. -/
def rawWaitExample : RawLLMAction :=
  ⟨"wait", Option.none, Option.none, Option.none, Option.none, Option.none,
   Option.none, Option.none, Option.none, Option.none⟩

/-- The pipeline output for rawWaitExample: selector kind inferred none,
duration coerced to 1. -/
def outWaitExample : PilotQAAIAction :=
  { toRawLLMAction :=
      ⟨"wait", Option.none, some SelectorType.none, Option.none, some 1, Option.none,
       Option.none, Option.none, Option.none, Option.none⟩,
    normalizedAction := "wait" }

/-- A raw type action with a textual selector and text. -/
def rawTypeExample : RawLLMAction :=
  ⟨"type", some "Email", Option.none, Option.none, Option.none, some "alice",
   Option.none, Option.none, Option.none, Option.none⟩

/-- The pipeline output for rawTypeExample. -/
def outTypeExample : PilotQAAIAction :=
  { toRawLLMAction :=
      ⟨"type", some "Email", some SelectorType.text, Option.none, Option.none, some "alice",
       Option.none, Option.none, Option.none, Option.none⟩,
    normalizedAction := "type" }

/-- A wait action with an explicit non-positive duration, fed to the
validator chain directly. -/
def rawWaitZeroDuration : RawLLMAction :=
  ⟨"wait", Option.none, Option.none, Option.none, some 0, Option.none,
   Option.none, Option.none, Option.none, Option.none⟩

/-- A frame with no matching elements and no text-heuristic hits. -/
def emptyFrame : FrameModel := ⟨fun _ => 0, fun _ => Option.none⟩

/-- A page with an empty main frame and no sub-frames. -/
def emptyPage : PageModel := ⟨emptyFrame, []⟩

/-- A frame whose only matching query is the css selector of actClickCss. -/
def frameWithX : FrameModel := ⟨fun q => if q == "#x" then 1 else 0, fun _ => Option.none⟩

/-- A page whose main frame matches only that css query. -/
def pageWithX : PageModel := ⟨frameWithX, []⟩

/-- A page whose main frame and first sub-frame are empty and whose
second sub-frame matches the css query of actClickCss. -/
def pageSubFrameHit : PageModel := ⟨emptyFrame, [emptyFrame, frameWithX]⟩

/-- A page with an empty main frame and two empty sub-frames. -/
def pageAllEmpty : PageModel := ⟨emptyFrame, [emptyFrame, emptyFrame]⟩

/-- An executable click action with a css selector. -/
def actClickCss : PilotQAAIAction :=
  { toRawLLMAction :=
      ⟨"click", some "#x", some SelectorType.css, Option.none, Option.none, Option.none,
       Option.none, Option.none, Option.none, Option.none⟩,
    normalizedAction := "click" }

/-- An executable reload action with selector kind none. -/
def actReloadNone : PilotQAAIAction :=
  { toRawLLMAction :=
      ⟨"reload", Option.none, some SelectorType.none, Option.none, Option.none, Option.none,
       Option.none, Option.none, Option.none, Option.none⟩,
    normalizedAction := "reload" }

/-- Credential oracle with every provider key configured. -/
def allKeysSet : LLMProvider → Bool := fun _ => true

/-- Attempt oracle on which the first two gemini candidates throw and the
third succeeds. -/
def attemptThirdSucceeds : LLMConfig → AttemptResult := fun cfg =>
  if cfg.model == "gemini-2.5-flash" then AttemptResult.failure "boom1"
  else if cfg.model == "gemini-2.0-flash" then AttemptResult.failure "boom2"
  else AttemptResult.success "[]"

/-- A cache populated at time 100 for one URL. -/
def cacheExample : PageCacheState :=
  ⟨some "OLD", 100, Option.none, "", "url-a"⟩

/-- The minimal instantiation (every optional group absent, first
alternatives chosen) of each of the eight vague ending patterns, in
pattern order. -/
def vagueMinimal : List String :=
  ["check if page displayed",
   "verify page displayed",
   "ensure page displayed",
   "verify everything looks good",
   "check page",
   "verify page",
   "confirm you are on right page",
   "verify product page displayed"]

/-- One full instantiation (every optional group present) of each of the
eight vague ending patterns, in pattern order. -/
def vagueCanonical : List String :=
  ["check if the page is being displayed correctly",
   "verify that the page is being displayed correctly",
   "ensure the page is displayed correctly",
   "verify that everything looks good",
   "check the page is ok",
   "verify page",
   "confirm you are on the right page",
   "verify product page is displayed"]

/-! ## Helper lemmas shared by the claim proofs -/

theorem runNormalizers_default (raw : RawLLMAction) :
    runNormalizers actionNormalizers raw =
      some (normalizeDefaultSelectorType (normalizeActionAlias raw)) := rfl

theorem runMappers_default (raw : RawLLMAction) :
    runMappers actionMappers raw =
      some { toRawLLMAction := raw, normalizedAction := raw.action } := rfl

theorem selectorTrimmed_fields (a : RawLLMAction) :
    (selectorTrimmed a).action = a.action ∧
    (selectorTrimmed a).selectorType = a.selectorType ∧
    (selectorTrimmed a).duration = a.duration ∧
    (selectorTrimmed a).text = a.text := by
  unfold selectorTrimmed
  cases a.selector <;> simp

theorem coerceSelectorType_selectorType (a : RawLLMAction) :
    (coerceSelectorType a).selectorType =
      some (match a.selectorType with
            | some t => t
            | Option.none => inferSelectorType (a.selector.getD "")) := by
  unfold coerceSelectorType
  cases h : a.selectorType <;> simp [h]

theorem coerceSelectorType_fields (a : RawLLMAction) :
    (coerceSelectorType a).action = a.action ∧
    (coerceSelectorType a).selector = a.selector ∧
    (coerceSelectorType a).duration = a.duration ∧
    (coerceSelectorType a).text = a.text := by
  unfold coerceSelectorType
  cases h : a.selectorType <;> simp [h]

theorem inferSelectorType_eq_none {s : String}
    (h : inferSelectorType s = SelectorType.none) : s = "" := by
  unfold inferSelectorType at h
  split at h
  · exact SelectorType.noConfusion h
  · split at h
    · exact SelectorType.noConfusion h
    · split at h
      · assumption
      · exact SelectorType.noConfusion h

theorem injectPreParsedOne_fields (typed : List (String × String)) (a : RawLLMAction) :
    (injectPreParsedOne typed a).action = a.action ∧
    (injectPreParsedOne typed a).selector = a.selector ∧
    (injectPreParsedOne typed a).selectorType = a.selectorType ∧
    (injectPreParsedOne typed a).duration = a.duration := by
  unfold injectPreParsedOne
  split
  · split <;> simp
  · simp

theorem normalizeActionAlias_fields (raw : RawLLMAction) :
    (normalizeActionAlias raw).selector = raw.selector ∧
    (normalizeActionAlias raw).selectorType = raw.selectorType ∧
    (normalizeActionAlias raw).duration = raw.duration ∧
    (normalizeActionAlias raw).text = raw.text := by
  unfold normalizeActionAlias
  split
  · simp
  · split <;> simp

theorem normalizeDefaultSelectorType_noop (raw : RawLLMAction)
    (h : raw.selectorType.isSome = true) :
    normalizeDefaultSelectorType raw = raw := by
  unfold normalizeDefaultSelectorType
  cases hx : raw.selectorType with
  | some t => simp
  | none => rw [hx] at h; simp at h

theorem exceptBind_ok {ε α β : Type} (a : α) (f : α → Except ε β) :
    (Except.ok a >>= f) = f a := rfl

theorem exceptBind_error {ε α β : Type} (e : ε) (f : α → Except ε β) :
    ((Except.error e : Except ε α) >>= f) = Except.error e := rfl

theorem runValidators_eq (cur : RawLLMAction) :
    runValidators cur =
      if cur.action ∉ noSelector ∧ selectorTruthy cur.selector = false then
        Except.error ("Action \"" ++ cur.action ++ "\" missing selector")
      else if cur.action = "type" ∧ textBlankJS cur.text = true then
        Except.error ("Action \"type\" missing text for selector \"" ++
          cur.selector.getD "" ++ "\"")
      else if cur.action = "wait" ∧ durationMissingOrNonPositive cur.duration = true then
        Except.ok { cur with duration := some 1 }
      else Except.ok cur := by
  unfold runValidators actionValidators
  simp only [List.foldlM]
  unfold validatorSelectorRequired validatorWaitDuration validatorTypeText
  by_cases h1 : cur.action ∉ noSelector ∧ selectorTruthy cur.selector = false
  · simp [h1, exceptBind_error]
  · by_cases h2 : cur.action = "wait" ∧ durationMissingOrNonPositive cur.duration = true
    · have hnt : ¬(cur.action = "type" ∧ textBlankJS cur.text = true) := by
        rintro ⟨h, _⟩
        rw [h] at h2
        exact absurd h2.1 (by decide)
      simp [h1, h2, hnt, exceptBind_ok, exceptBind_error, noSelector]
    · by_cases h3 : cur.action = "type" ∧ textBlankJS cur.text = true
      · have hnw : ¬("type" = "wait" ∧ durationMissingOrNonPositive cur.duration = true) := by
          rintro ⟨h, _⟩
          exact absurd h (by decide)
        have hsel : selectorTruthy cur.selector = true := by
          rcases Bool.eq_false_or_eq_true (selectorTruthy cur.selector) with htr | hf
          · exact htr
          · exact absurd ⟨by rw [h3.1]; decide, hf⟩ h1
        simp [h1, h2, h3, hnw, hsel, exceptBind_ok, exceptBind_error, noSelector]
      · simp [h1, h2, h3, exceptBind_ok, exceptBind_error]

theorem runValidators_ok_props (cur v : RawLLMAction)
    (h : runValidators cur = Except.ok v) :
    v.action = cur.action ∧ v.selector = cur.selector ∧
    v.selectorType = cur.selectorType ∧ v.text = cur.text ∧
    ¬(cur.action ∉ noSelector ∧ selectorTruthy cur.selector = false) ∧
    ¬(cur.action = "type" ∧ textBlankJS cur.text = true) ∧
    v.duration = (if cur.action = "wait" ∧ durationMissingOrNonPositive cur.duration = true
                  then some 1 else cur.duration) := by
  rw [runValidators_eq] at h
  by_cases h1 : cur.action ∉ noSelector ∧ selectorTruthy cur.selector = false
  · rw [if_pos h1] at h
    exact absurd h (by simp)
  · rw [if_neg h1] at h
    by_cases h3 : cur.action = "type" ∧ textBlankJS cur.text = true
    · rw [if_pos h3] at h
      exact absurd h (by simp)
    · rw [if_neg h3] at h
      by_cases h2 : cur.action = "wait" ∧ durationMissingOrNonPositive cur.duration = true
      · rw [if_pos h2] at h
        have hv : v = { cur with duration := some 1 } := by
          have := h
          simp at this
          exact this.symm
        subst hv
        exact ⟨rfl, rfl, rfl, rfl, h1, h3, by rw [if_pos h2]⟩
      · rw [if_neg h2] at h
        have hv : v = cur := by
          have := h
          simp at this
          exact this.symm
        subst hv
        exact ⟨rfl, rfl, rfl, rfl, h1, h3, by rw [if_neg h2]⟩

theorem actionsSchemaParse_mem (isValidUrl : String → Bool) (arr : List RawLLMAction) :
    ∀ parsed, actionsSchemaParse isValidUrl arr = Except.ok parsed →
      ∀ b ∈ parsed, ∃ a ∈ arr, actionSchemaParse isValidUrl a = Except.ok b := by
  induction arr with
  | nil =>
    intro parsed h b hb
    unfold actionsSchemaParse at h
    simp at h
    subst h
    simp at hb
  | cons a rest ih =>
    intro parsed h b hb
    unfold actionsSchemaParse at h
    cases ha : actionSchemaParse isValidUrl a with
    | error e => rw [ha] at h; simp at h
    | ok b1 =>
      cases hr : actionsSchemaParse isValidUrl rest with
      | error e => rw [ha, hr] at h; simp at h
      | ok l =>
        rw [ha, hr] at h
        simp at h
        subst h
        rcases List.mem_cons.1 hb with hb1 | hbm
        · subst hb1
          exact ⟨a, List.mem_cons_self a rest, ha⟩
        · obtain ⟨a2, ha2, hp⟩ := ih l hr b hbm
          exact ⟨a2, List.mem_cons_of_mem a ha2, hp⟩

theorem buildFinalActions_mem (l : List RawLLMAction) :
    ∀ outs, buildFinalActions l = Except.ok outs →
      ∀ o ∈ outs, ∃ raw ∈ l, processOneAction raw = Except.ok (some o) := by
  induction l with
  | nil =>
    intro outs h o ho
    unfold buildFinalActions at h
    simp at h
    subst h
    simp at ho
  | cons raw rest ih =>
    intro outs h o ho
    unfold buildFinalActions at h
    cases hp : processOneAction raw with
    | error e => rw [hp] at h; simp at h
    | ok mapped =>
      cases hb : buildFinalActions rest with
      | error e => rw [hp, hb] at h; simp at h
      | ok tail =>
        rw [hp, hb] at h
        cases mapped with
        | none =>
          simp at h
          subst h
          obtain ⟨r2, hr2, hpo⟩ := ih tail hb o ho
          exact ⟨r2, List.mem_cons_of_mem raw hr2, hpo⟩
        | some m =>
          simp at h
          subst h
          rcases List.mem_cons.1 ho with ho1 | hom
          · subst ho1
            exact ⟨raw, List.mem_cons_self raw rest, hp⟩
          · obtain ⟨r2, hr2, hpo⟩ := ih tail hb o hom
            exact ⟨r2, List.mem_cons_of_mem raw hr2, hpo⟩

theorem processOneAction_ok_some (raw : RawLLMAction) (o : PilotQAAIAction)
    (h : processOneAction raw = Except.ok (some o)) :
    ∃ v, runValidators (normalizeDefaultSelectorType (normalizeActionAlias raw)) =
        Except.ok v ∧
      o = { toRawLLMAction := v, normalizedAction := v.action } := by
  unfold processOneAction at h
  rw [runNormalizers_default] at h
  simp only [] at h
  cases hv : runValidators (normalizeDefaultSelectorType (normalizeActionAlias raw)) with
  | error e => simp [hv] at h
  | ok v =>
    simp only [hv, runMappers_default] at h
    simp at h
    exact ⟨v, rfl, h.symm⟩

theorem actionPipeline_ok_elim (isValidUrl : String → Bool)
    (typed : List (String × String)) (arr : List RawLLMAction)
    (outs : List PilotQAAIAction)
    (h : actionPipeline isValidUrl typed arr = Except.ok outs) :
    ∃ parsed, actionsSchemaParse isValidUrl arr = Except.ok parsed ∧
      buildFinalActions (dropTextlessType (dropAlreadyTyped typed
        (injectPreParsedText typed parsed))) = Except.ok outs := by
  unfold actionPipeline at h
  cases hp : actionsSchemaParse isValidUrl arr with
  | error e => rw [hp] at h; simp at h
  | ok parsed =>
    rw [hp] at h
    simp only [] at h
    cases hb : buildFinalActions (dropTextlessType (dropAlreadyTyped typed
        (injectPreParsedText typed parsed))) with
    | error e => simp [hb] at h
    | ok fin =>
      simp only [hb] at h
      by_cases he : fin.isEmpty = true
      · rw [if_pos he] at h
        simp at h
      · rw [if_neg he] at h
        simp at h
        subst h
        exact ⟨parsed, rfl, hb⟩

theorem actionPipeline_output_trace (isValidUrl : String → Bool)
    (typed : List (String × String)) (arr : List RawLLMAction)
    (outs : List PilotQAAIAction)
    (h : actionPipeline isValidUrl typed arr = Except.ok outs)
    (o : PilotQAAIAction) (ho : o ∈ outs) :
    ∃ a ∈ arr, ∃ p, actionSchemaParse isValidUrl a = Except.ok p ∧
      ∃ v, runValidators (normalizeDefaultSelectorType (normalizeActionAlias
          (injectPreParsedOne typed p))) = Except.ok v ∧
        o = { toRawLLMAction := v, normalizedAction := v.action } := by
  obtain ⟨parsed, hp, hb⟩ := actionPipeline_ok_elim isValidUrl typed arr outs h
  obtain ⟨raw, hraw, hpo⟩ := buildFinalActions_mem _ _ hb o ho
  have hraw2 : raw ∈ dropAlreadyTyped typed (injectPreParsedText typed parsed) :=
    (List.mem_filter.1 hraw).1
  have hraw3 : raw ∈ injectPreParsedText typed parsed :=
    (List.mem_filter.1 hraw2).1
  obtain ⟨p, hpmem, hpeq⟩ := List.mem_map.1 hraw3
  obtain ⟨a, hamem, hap⟩ := actionsSchemaParse_mem isValidUrl arr parsed hp p hpmem
  obtain ⟨v, hv, hoeq⟩ := processOneAction_ok_some raw o hpo
  subst hpeq
  exact ⟨a, hamem, p, hap, v, hv, hoeq⟩

theorem actionSchemaChecks_ok (isValidUrl : String → Bool) (b c : RawLLMAction)
    (h : actionSchemaChecks isValidUrl b = Except.ok c) :
    c = b ∧ positiveIntOk b.duration = true ∧
    (match b.selector with | some s => s == "" | Option.none => false) = false := by
  unfold actionSchemaChecks at h
  by_cases h1 : b.action = ""
  · rw [if_pos h1] at h; simp at h
  · rw [if_neg h1] at h
    by_cases h2 : (match b.selector with | some s => s == "" | Option.none => false) = true
    · rw [if_pos h2] at h; simp at h
    · rw [if_neg h2] at h
      by_cases h3 : (!positiveIntOk b.timeout) = true
      · rw [if_pos h3] at h; simp at h
      · rw [if_neg h3] at h
        by_cases h4 : (!positiveIntOk b.duration) = true
        · rw [if_pos h4] at h; simp at h
        · rw [if_neg h4] at h
          by_cases h5 : (match b.url with | some u => !isValidUrl u | Option.none => false) = true
          · rw [if_pos h5] at h; simp at h
          · rw [if_neg h5] at h
            simp at h
            refine ⟨h.symm, ?_, ?_⟩
            · rcases Bool.eq_false_or_eq_true (positiveIntOk b.duration) with ht | hf
              · exact ht
              · exact absurd (by rw [hf]; rfl) h4
            · rcases Bool.eq_false_or_eq_true
                ((match b.selector with | some s => s == "" | Option.none => false)) with ht | hf
              · exact absurd ht h2
              · exact hf

theorem actionSchemaParse_ok_props (isValidUrl : String → Bool) (a p : RawLLMAction)
    (h : actionSchemaParse isValidUrl a = Except.ok p) :
    p.selectorType.isSome = true ∧
    (a.selectorType ≠ some SelectorType.none → p.selectorType = some SelectorType.none →
      p.selector.getD "" = "") ∧
    (p.duration = Option.none ∨ ∃ d, p.duration = some d ∧ 0 < d) := by
  unfold actionSchemaParse at h
  cases hb : actionSchemaBase isValidUrl a with
  | error e => rw [hb] at h; simp [Except.map] at h
  | ok c =>
    rw [hb] at h
    simp [Except.map] at h
    unfold actionSchemaBase at hb
    obtain ⟨hcb, hdur, hselne⟩ := actionSchemaChecks_ok isValidUrl (selectorTrimmed a) c hb
    subst hcb
    subst h
    have hst := coerceSelectorType_selectorType (selectorTrimmed a)
    have hfields := coerceSelectorType_fields (selectorTrimmed a)
    have htf := selectorTrimmed_fields a
    refine ⟨?_, ?_, ?_⟩
    · rw [hst]; rfl
    · intro hexp hnone
      rw [hst] at hnone
      rw [htf.2.1] at hnone
      cases ha : a.selectorType with
      | some t =>
        rw [ha] at hnone
        simp at hnone
        rw [hnone] at ha
        exact absurd ha hexp
      | none =>
        rw [ha] at hnone
        simp at hnone
        rw [hfields.2.1]
        exact inferSelectorType_eq_none hnone
    · rw [hfields.2.2.1]
      unfold positiveIntOk at hdur
      cases hd : (selectorTrimmed a).duration with
      | none => exact Or.inl rfl
      | some d =>
        rw [hd] at hdur
        simp at hdur
        exact Or.inr ⟨d, rfl, hdur⟩

theorem pipeline_cur_fields (typed : List (String × String)) (p : RawLLMAction)
    (hsome : p.selectorType.isSome = true) :
    (normalizeDefaultSelectorType (normalizeActionAlias
      (injectPreParsedOne typed p))).selector = p.selector ∧
    (normalizeDefaultSelectorType (normalizeActionAlias
      (injectPreParsedOne typed p))).selectorType = p.selectorType ∧
    (normalizeDefaultSelectorType (normalizeActionAlias
      (injectPreParsedOne typed p))).duration = p.duration := by
  have hi := injectPreParsedOne_fields typed p
  have hn := normalizeActionAlias_fields (injectPreParsedOne typed p)
  have hsome2 : (normalizeActionAlias (injectPreParsedOne typed p)).selectorType.isSome
      = true := by
    rw [hn.2.1, hi.2.2.1]; exact hsome
  rw [normalizeDefaultSelectorType_noop _ hsome2]
  exact ⟨by rw [hn.1, hi.2.1], by rw [hn.2.1, hi.2.2.1], by rw [hn.2.2.1, hi.2.2.2]⟩

theorem scanFrames_all_zero (a : PilotQAAIAction) (q : String)
    (hmk : ∀ f, makeInFrame f a = some q) :
    ∀ (frames : List FrameModel) (idx : Nat),
      (∀ f ∈ frames, f.count q = 0) → scanFrames a idx frames = Option.none := by
  intro frames
  induction frames with
  | nil => intro idx hz; rfl
  | cons f0 rest ih =>
    intro idx hz
    have h0 : f0.count q = 0 := hz f0 (List.mem_cons_self f0 rest)
    unfold scanFrames
    simp [tryFrameLocator, hmk f0, h0]
    exact ih (idx + 1) (fun f hf => hz f (List.mem_cons_of_mem f0 hf))

theorem scanFrames_first_hit (a : PilotQAAIAction) (q : String)
    (hmk : ∀ f, makeInFrame f a = some q) :
    ∀ (frames : List FrameModel) (idx i : Nat) (f : FrameModel),
      frames.get? i = some f → f.count q > 0 →
      (∀ j f2, j < i → frames.get? j = some f2 → f2.count q = 0) →
      scanFrames a idx frames = some ⟨idx + i, q, true⟩ := by
  intro frames
  induction frames with
  | nil =>
    intro idx i f hg hc hz
    simp at hg
  | cons f0 rest ih =>
    intro idx i f hg hc hz
    cases i with
    | zero =>
      have hf : f0 = f := by simpa using hg
      subst hf
      unfold scanFrames
      simp [tryFrameLocator, hmk f0, hc]
    | succ i2 =>
      have h0 : f0.count q = 0 := hz 0 f0 (Nat.succ_pos i2) (by simp)
      unfold scanFrames
      simp [tryFrameLocator, hmk f0, h0]
      have hrec := ih (idx + 1) i2 f (by simpa using hg) hc
        (fun j f2 hj hgj => hz (j + 1) f2 (Nat.succ_lt_succ hj) (by simpa using hgj))
      rw [hrec]
      have harith : idx + 1 + i2 = idx + (i2 + 1) := by omega
      rw [harith]

/-! ## Claim theorems -/

/-- C2: selector-kind inference is a total, deterministic function of the
selector string and agrees with the case table of the specification (the
empty string yields none; a leading xpath= or // yields xpath; a leading
dot, hash, bracket or colon yields css; everything else yields text), and
the schema transform applies exactly this inference whenever selectorType
is absent, keeping an explicit selectorType untouched. -/
theorem selector_kind_inference_matches_spec :
    (∀ s : String, inferSelectorType s = specSelectorKind s) ∧
    (∀ a : RawLLMAction, (coerceSelectorType a).selectorType =
      some (match a.selectorType with
            | some t => t
            | Option.none => inferSelectorType (a.selector.getD ""))) := by
  constructor
  · intro s
    unfold inferSelectorType specSelectorKind
    by_cases h0 : s = ""
    · subst h0; decide
    · simp [h0]
  · exact coerceSelectorType_selectorType

/-- C9: for a raw action of kind wait whose duration is absent or at most
zero, the validator chain succeeds and returns the action with duration
coerced to 1. -/
theorem validator_coerces_wait_duration (a : RawLLMAction)
    (hw : a.action = "wait")
    (hd : a.duration = Option.none ∨ ∃ d, a.duration = some d ∧ d ≤ 0) :
    runValidators a = Except.ok { a with duration := some 1 } := by
  rw [runValidators_eq]
  have hnosel : ¬(a.action ∉ noSelector ∧ selectorTruthy a.selector = false) := by
    rintro ⟨hmem, _⟩
    exact hmem (by rw [hw]; decide)
  rw [if_neg hnosel]
  have hntype : ¬(a.action = "type" ∧ textBlankJS a.text = true) := by
    rintro ⟨ht, _⟩
    rw [hw] at ht
    exact absurd ht (by decide)
  rw [if_neg hntype]
  have hwait : a.action = "wait" ∧ durationMissingOrNonPositive a.duration = true := by
    refine ⟨hw, ?_⟩
    rcases hd with h | ⟨d, hds, hdle⟩
    · rw [h]; rfl
    · rw [hds]
      simp [durationMissingOrNonPositive]
      exact hdle
  rw [if_pos hwait]

/-- Witness for C9: a wait action with duration 0 is coerced to duration 1
without an error. -/
theorem validator_coerces_wait_duration_witness :
    runValidators rawWaitZeroDuration =
      Except.ok { rawWaitZeroDuration with duration := some 1 } :=
  validator_coerces_wait_duration rawWaitZeroDuration rfl (Or.inr ⟨0, rfl, by decide⟩)

/-- C10: with the default registry holding only the base mapper, mapping
is total: every raw action is accepted by the first mapper, no action is
dropped at the mapping step, and the result carries normalizedAction
equal to the action with every other field unchanged. -/
theorem default_mapper_total_and_identity (raw : RawLLMAction) :
    runMappers actionMappers raw =
      some { toRawLLMAction := raw, normalizedAction := raw.action } := rfl

/-- Counterexample for C1 as frozen: the pipeline accepts a click action
that carries an explicit selectorType none together with a selector, so
its output does contain an ExecutableAction whose selectorType is none
while its kind click requires a selector. -/
theorem pipeline_explicit_none_counterexample :
    actionPipeline anyUrlValid [] [rawClickExplicitNone] =
      Except.ok [outClickExplicitNone] ∧
    outClickExplicitNone.selectorType = some SelectorType.none ∧
    outClickExplicitNone.action = "click" ∧ "click" ∉ noSelector := by
  refine ⟨rfl, rfl, rfl, by decide⟩

/-- C1 (amended): for every action list the pipeline accepts, no resulting
type action has empty or blank text; and provided no input action carries
an explicit selectorType of none (the inferred kind case of the claim),
no resulting ExecutableAction has selectorType none while its kind
requires a selector. -/
theorem pipeline_selector_and_text_invariants (isValidUrl : String → Bool)
    (typed : List (String × String)) (arr : List RawLLMAction)
    (outs : List PilotQAAIAction)
    (h : actionPipeline isValidUrl typed arr = Except.ok outs)
    (o : PilotQAAIAction) (ho : o ∈ outs) :
    (o.action = "type" → textBlankJS o.text = false) ∧
    ((∀ a ∈ arr, a.selectorType ≠ some SelectorType.none) →
      o.selectorType = some SelectorType.none → o.action ∈ noSelector) := by
  obtain ⟨a, hamem, p, hap, v, hv, hoeq⟩ :=
    actionPipeline_output_trace isValidUrl typed arr outs h o ho
  have hvp := runValidators_ok_props _ _ hv
  have hoact : o.action = v.action := by rw [hoeq]
  have hotext : o.text = v.text := by rw [hoeq]
  have hosel : o.selectorType = v.selectorType := by rw [hoeq]
  constructor
  · intro hty
    have hcurty : (normalizeDefaultSelectorType (normalizeActionAlias
        (injectPreParsedOne typed p))).action = "type" := by
      rw [← hvp.1, ← hoact]
      exact hty
    have hnb := hvp.2.2.2.2.2.1
    rcases Bool.eq_false_or_eq_true
        (textBlankJS (normalizeDefaultSelectorType (normalizeActionAlias
          (injectPreParsedOne typed p))).text) with ht | hf
    · exact absurd ⟨hcurty, ht⟩ hnb
    · rw [hotext, hvp.2.2.2.1]
      exact hf
  · intro hexp hnone
    have hprops := actionSchemaParse_ok_props isValidUrl a p hap
    have hcf := pipeline_cur_fields typed p hprops.1
    have hpnone : p.selectorType = some SelectorType.none := by
      rw [← hcf.2.1, ← hvp.2.2.1, ← hosel]
      exact hnone
    have hpsel : p.selector.getD "" = "" := hprops.2.1 (hexp a hamem) hpnone
    have hcursel : selectorTruthy (normalizeDefaultSelectorType (normalizeActionAlias
        (injectPreParsedOne typed p))).selector = false := by
      rw [hcf.1]
      unfold selectorTruthy
      simp [hpsel]
    have hnc := hvp.2.2.2.2.1
    have hmem : (normalizeDefaultSelectorType (normalizeActionAlias
        (injectPreParsedOne typed p))).action ∈ noSelector := by
      by_contra hno
      exact hnc ⟨hno, hcursel⟩
    rw [hoact, hvp.1]
    exact hmem

/-- Witness for C1 (amended): a surviving type action has non-blank text,
and a wait action whose selector kind was inferred to none has a kind in
the selector-less set. -/
theorem pipeline_selector_and_text_invariants_witness :
    textBlankJS outTypeExample.text = false ∧ outWaitExample.action ∈ noSelector :=
  ⟨(pipeline_selector_and_text_invariants anyUrlValid [] [rawTypeExample] [outTypeExample]
      rfl outTypeExample (List.mem_singleton.2 rfl)).1 rfl,
   (pipeline_selector_and_text_invariants anyUrlValid [] [rawWaitExample] [outWaitExample]
      rfl outWaitExample (List.mem_singleton.2 rfl)).2 (by decide) rfl⟩

/-- C8: every wait action dispatched by the engine (that is, every wait
action the pipeline produces) carries a duration d of at least 1, and the
wait dispatch arm sleeps clamp(duration, 1) * 1000 = max(1, d) * 1000
milliseconds, i.e. max(1, duration) seconds. -/
theorem wait_dispatch_sleeps_max_one_duration (isValidUrl : String → Bool)
    (typed : List (String × String)) (arr : List RawLLMAction)
    (outs : List PilotQAAIAction)
    (h : actionPipeline isValidUrl typed arr = Except.ok outs)
    (o : PilotQAAIAction) (ho : o ∈ outs) (hw : o.action = "wait") :
    ∃ d : Int, o.duration = some d ∧ 1 ≤ d ∧ waitSleepMs o = max 1 d * 1000 := by
  obtain ⟨a, hamem, p, hap, v, hv, hoeq⟩ :=
    actionPipeline_output_trace isValidUrl typed arr outs h o ho
  have hvp := runValidators_ok_props _ _ hv
  have hprops := actionSchemaParse_ok_props isValidUrl a p hap
  have hcf := pipeline_cur_fields typed p hprops.1
  have hoact : o.action = v.action := by rw [hoeq]
  have hodur : o.duration = v.duration := by rw [hoeq]
  have hcuract : (normalizeDefaultSelectorType (normalizeActionAlias
      (injectPreParsedOne typed p))).action = "wait" := by
    rw [← hvp.1, ← hoact]
    exact hw
  have hvdur := hvp.2.2.2.2.2.2
  by_cases hmiss : durationMissingOrNonPositive (normalizeDefaultSelectorType
      (normalizeActionAlias (injectPreParsedOne typed p))).duration = true
  · have hone : v.duration = some 1 := by rw [hvdur, if_pos ⟨hcuract, hmiss⟩]
    refine ⟨1, by rw [hodur, hone], by decide, ?_⟩
    unfold waitSleepMs clamp
    rw [hodur, hone]
    decide
  · have hsame : v.duration = (normalizeDefaultSelectorType (normalizeActionAlias
        (injectPreParsedOne typed p))).duration := by
      rw [hvdur, if_neg (fun hc => hmiss hc.2)]
    have hcd := hcf.2.2
    rcases hprops.2.2 with hn | ⟨d, hds, hdpos⟩
    · exfalso
      apply hmiss
      rw [hcd, hn]
      rfl
    · have hmax : max 1 d = d := max_eq_right (by omega)
      refine ⟨d, by rw [hodur, hsame, hcd, hds], by omega, ?_⟩
      unfold waitSleepMs clamp
      rw [hodur, hsame, hcd, hds, hmax]
      rfl

/-- Witness for C8: a wait action that came out of the pipeline with
duration 1 sleeps max(1, 1) * 1000 = 1000 milliseconds. -/
theorem wait_dispatch_sleeps_max_one_duration_witness :
    ∃ d : Int, outWaitExample.duration = some d ∧ 1 ≤ d ∧
      waitSleepMs outWaitExample = max 1 d * 1000 :=
  wait_dispatch_sleeps_max_one_duration anyUrlValid [] [rawWaitExample] [outWaitExample]
    rfl outWaitExample (List.mem_singleton.2 rfl) rfl

/-- C3: in any engine round whose try-body raises while the remaining
instruction is non-empty and retryCount is below maxRetries, the catch
branch increments retryCount; while the new count is still below
maxRetries it reports the fixed 900 ms backoff and the loop continues on
the same remaining instruction with the incremented count; once the count
reaches maxRetries the run raises a single error whose message names the
number of attempts and embeds the last underlying error message. -/
theorem engine_retry_and_failure_message (maxRetries : Nat) (rest : List RoundOutcome)
    (remaining : String) (retryCount : Nat) (e : String)
    (hr : remaining.length ≠ 0) (hc : retryCount < maxRetries) :
    (retryCount + 1 < maxRetries →
      retryStep maxRetries retryCount e = Except.ok (retryCount + 1, 900) ∧
      engineLoop maxRetries (RoundOutcome.failure e :: rest) remaining retryCount =
        engineLoop maxRetries rest remaining (retryCount + 1)) ∧
    (maxRetries ≤ retryCount + 1 →
      engineLoop maxRetries (RoundOutcome.failure e :: rest) remaining retryCount =
        Except.error ("Failed after " ++ toString maxRetries ++ " attempts: " ++ e)) := by
  have hguard : ¬(remaining.length = 0 ∨ maxRetries ≤ retryCount) := by
    rintro (h | h)
    · exact hr h
    · omega
  constructor
  · intro hlt
    have hstep : retryStep maxRetries retryCount e = Except.ok (retryCount + 1, 900) := by
      unfold retryStep
      rw [if_neg (by omega)]
      rfl
    refine ⟨hstep, ?_⟩
    conv_lhs => rw [engineLoop]
    rw [if_neg hguard, hstep]
  · intro hge
    have hstep : retryStep maxRetries retryCount e =
        Except.error (retryFailureMessage maxRetries e) := by
      unfold retryStep
      rw [if_pos hge]
    conv_lhs => rw [engineLoop]
    rw [if_neg hguard, hstep]
    rfl

/-- Witness for C3: with maxRetries 3 a first failure retries with a
900 ms backoff on the same instruction; with maxRetries 1 the same
failure raises the fatal message embedding the underlying error. -/
theorem engine_retry_and_failure_message_witness :
    (retryStep 3 0 "LLM output is not a valid JSON actions array" =
        Except.ok (0 + 1, 900) ∧
      engineLoop 3 [RoundOutcome.failure "LLM output is not a valid JSON actions array"]
          "click Login" 0 =
        engineLoop 3 [] "click Login" (0 + 1)) ∧
    engineLoop 1 [RoundOutcome.failure "LLM output is not a valid JSON actions array"]
        "click Login" 0 =
      Except.error ("Failed after " ++ toString 1 ++ " attempts: " ++
        "LLM output is not a valid JSON actions array") :=
  ⟨(engine_retry_and_failure_message 3 [] "click Login" 0
      "LLM output is not a valid JSON actions array" (by decide) (by decide)).1 (by decide),
   (engine_retry_and_failure_message 1 [] "click Login" 0
      "LLM output is not a valid JSON actions array" (by decide) (by decide)).2 (by decide)⟩

/-- C4: the gateway attempts candidates strictly in list order; a
candidate whose provider lacks credentials is skipped without recording a
failure; the first success returns that candidate's model name and does
not re-raise earlier failures; a failure records the error and advances;
the error is raised only once every candidate has been tried, surfacing
the last recorded error message; and the public entry point runs exactly
this loop over the credential-ordered candidate list. -/
theorem llm_fallback_order_and_errors (hasKey : LLMProvider → Bool)
    (attempt : LLMConfig → AttemptResult) (cfg : LLMConfig)
    (rest : List LLMConfig) (le : Option String) :
    (hasKey cfg.provider = false →
      invokeLLMAux hasKey attempt (cfg :: rest) le =
        invokeLLMAux hasKey attempt rest le) ∧
    (∀ r, hasKey cfg.provider = true → attempt cfg = AttemptResult.success r →
      invokeLLMAux hasKey attempt (cfg :: rest) le = Except.ok ⟨r, cfg.model⟩) ∧
    (∀ e, hasKey cfg.provider = true → attempt cfg = AttemptResult.failure e →
      invokeLLMAux hasKey attempt (cfg :: rest) le =
        invokeLLMAux hasKey attempt rest (some e)) ∧
    (invokeLLMAux hasKey attempt [] le =
      Except.error ("All LLM models failed. Last error: " ++ lastErrorMessage le)) ∧
    (invokeLLMWithFallback hasKey attempt =
      invokeLLMAux hasKey attempt (availableLLMs hasKey) Option.none) ∧
    (∀ c2 c3 e1 e2 r, hasKey cfg.provider = true → hasKey c2.provider = true →
      hasKey c3.provider = true →
      attempt cfg = AttemptResult.failure e1 → attempt c2 = AttemptResult.failure e2 →
      attempt c3 = AttemptResult.success r →
      invokeLLMAux hasKey attempt [cfg, c2, c3] le = Except.ok ⟨r, c3.model⟩) := by
  refine ⟨?_, ?_, ?_, rfl, rfl, ?_⟩
  · intro hk
    simp [invokeLLMAux, hk]
  · intro r hk ha
    simp [invokeLLMAux, hk, ha]
  · intro e hk ha
    simp [invokeLLMAux, hk, ha]
  · intro c2 c3 e1 e2 r hk1 hk2 hk3 ha1 ha2 ha3
    simp [invokeLLMAux, hk1, hk2, hk3, ha1, ha2, ha3]

/-- Witness for C4: with every key configured and the first two gemini
candidates throwing, the gateway returns the third candidate's response
and model name without re-raising the two earlier failures. -/
theorem llm_fallback_order_and_errors_witness :
    invokeLLMAux allKeysSet attemptThirdSucceeds
      [⟨LLMProvider.gemini, "gemini-2.5-flash"⟩, ⟨LLMProvider.gemini, "gemini-2.0-flash"⟩,
       ⟨LLMProvider.gemini, "gemini-1.5-flash"⟩] Option.none =
      Except.ok ⟨"[]", "gemini-1.5-flash"⟩ :=
  (llm_fallback_order_and_errors allKeysSet attemptThirdSucceeds
      ⟨LLMProvider.gemini, "gemini-2.5-flash"⟩
      [⟨LLMProvider.gemini, "gemini-2.0-flash"⟩, ⟨LLMProvider.gemini, "gemini-1.5-flash"⟩]
      Option.none).2.2.2.2.2
    ⟨LLMProvider.gemini, "gemini-2.0-flash"⟩ ⟨LLMProvider.gemini, "gemini-1.5-flash"⟩
    "boom1" "boom2" "[]" rfl rfl rfl rfl rfl rfl

/-- C5: with caching enabled the cached HTML excerpt is served only when
the stored URL equals the live URL, the cached content is present
(non-empty) and the timestamp lies inside the 5000 ms window; whenever
any of these fails, in particular whenever the stored URL differs from
the live URL even inside the window, the freshly computed excerpt is
returned and stored instead; and a URL change observed by the navigation
detector clears the cached HTML, so the next getOptimizedHTML call cannot
return the pre-navigation excerpt. -/
theorem page_cache_url_freshness_and_navigation (c : PageCacheState) (pageUrl : String)
    (now : Nat) (freshHTML : String) :
    (c.currentUrl = pageUrl → cacheTruthy c.htmlContent = true →
      now - c.htmlTimestamp < CACHE_DURATION →
      getOptimizedHTML c pageUrl now freshHTML true = (c.htmlContent.getD "", c)) ∧
    (¬(c.currentUrl = pageUrl ∧ cacheTruthy c.htmlContent = true ∧
        now - c.htmlTimestamp < CACHE_DURATION) →
      getOptimizedHTML c pageUrl now freshHTML true =
        (freshHTML, { c with htmlContent := some freshHTML, htmlTimestamp := now,
                             currentUrl := pageUrl })) ∧
    (c.currentUrl ≠ pageUrl →
      (getOptimizedHTML c pageUrl now freshHTML true).1 = freshHTML) ∧
    (∀ st : NavState, ∀ newUrl, newUrl ≠ st.currentPageUrl →
      (detectNavigationChange newUrl st c true).2.2.htmlContent = Option.none ∧
      ∀ url2 now2 fresh2,
        (getOptimizedHTML (detectNavigationChange newUrl st c true).2.2
          url2 now2 fresh2 true).1 = fresh2) := by
  refine ⟨?_, ?_, ?_, ?_⟩
  · intro h1 h2 h3
    have hb : (true && (c.currentUrl == pageUrl) && cacheTruthy c.htmlContent &&
        decide (now - c.htmlTimestamp < CACHE_DURATION)) = true := by
      simp [h1, h2, h3]
    unfold getOptimizedHTML
    rw [hb]
    simp
  · intro hn
    have hb : (true && (c.currentUrl == pageUrl) && cacheTruthy c.htmlContent &&
        decide (now - c.htmlTimestamp < CACHE_DURATION)) = false := by
      by_cases h1 : c.currentUrl = pageUrl
      · by_cases h2 : cacheTruthy c.htmlContent = true
        · by_cases h3 : now - c.htmlTimestamp < CACHE_DURATION
          · exact absurd ⟨h1, h2, h3⟩ hn
          · simp [h3]
        · simp [h2]
      · simp [h1]
    unfold getOptimizedHTML
    rw [hb]
    simp
  · intro hne
    have hb : (true && (c.currentUrl == pageUrl) && cacheTruthy c.htmlContent &&
        decide (now - c.htmlTimestamp < CACHE_DURATION)) = false := by
      simp [hne]
    unfold getOptimizedHTML
    rw [hb]
    simp
  · intro st newUrl hne
    have hcl : (detectNavigationChange newUrl st c true).2.2.htmlContent = Option.none := by
      simp [detectNavigationChange, hne]
    refine ⟨hcl, ?_⟩
    intro url2 now2 fresh2
    have hct : cacheTruthy (detectNavigationChange newUrl st c true).2.2.htmlContent
        = false := by
      rw [hcl]
      rfl
    simp [getOptimizedHTML, hct]

/-- Witness for C5: a cache stored for one URL is bypassed on another URL
even inside the freshness window, and after a detected navigation the
cached HTML is gone and the next call returns the fresh excerpt. -/
theorem page_cache_url_freshness_and_navigation_witness :
    getOptimizedHTML cacheExample "url-b" 101 "FRESH" true =
      ("FRESH", (⟨some "FRESH", 101, Option.none, "", "url-b"⟩ : PageCacheState)) ∧
    (detectNavigationChange "url-b" ⟨"url-a", 0⟩ cacheExample true).2.2.htmlContent =
      Option.none ∧
    (getOptimizedHTML (detectNavigationChange "url-b" ⟨"url-a", 0⟩ cacheExample true).2.2
      "url-b" 102 "NEW" true).1 = "NEW" :=
  ⟨(page_cache_url_freshness_and_navigation cacheExample "url-b" 101 "FRESH").2.1
      (by intro hh; exact absurd hh.1 (by decide)),
   ((page_cache_url_freshness_and_navigation cacheExample "url-b" 101 "FRESH").2.2.2
      ⟨"url-a", 0⟩ "url-b" (by decide)).1,
   ((page_cache_url_freshness_and_navigation cacheExample "url-b" 101 "FRESH").2.2.2
      ⟨"url-a", 0⟩ "url-b" (by decide)).2 "url-b" 102 "NEW"⟩

/-- Counterexample for C7 as frozen: for a css action whose selector
matches nothing in any frame, resolveLocator returns null rather than the
direct locator built from the selector, so the resolver does not
unconditionally return the direct locator for css and xpath kinds. -/
theorem resolveLocator_css_no_match_counterexample :
    actClickCss.selectorType = some SelectorType.css ∧
    resolveLocator emptyPage actClickCss = Option.none := ⟨rfl, rfl⟩

/-- C7 (amended): for selector kind none, resolveLocator returns null;
for css and xpath kinds it builds only the direct locator q from the
selector (css: the selector itself, xpath: the selector prefixed with
xpath=) with no heuristic candidates, and returns that locator narrowed
by first() from the first frame in which it matches at least one element,
trying the main document first and then the sub-frames in order: a main
frame match wins with frame index 0; when the main frame has no match the
result comes from the first matching sub-frame (all earlier sub-frames
matching nothing), at frame index i + 1 for the i-th sub-frame; and when
the main frame and every sub-frame match nothing the result is null. -/
theorem resolveLocator_none_css_xpath_behavior (page : PageModel) (a : PilotQAAIAction) :
    (a.selectorType = some SelectorType.none → resolveLocator page a = Option.none) ∧
    (∀ q, ((a.selectorType = some SelectorType.css ∧ q = a.selector.getD "") ∨
           (a.selectorType = some SelectorType.xpath ∧
             q = "xpath=" ++ a.selector.getD "")) →
      (page.main.count q > 0 → resolveLocator page a = some ⟨0, q, true⟩) ∧
      (∀ i f, page.main.count q = 0 → page.frames.get? i = some f →
        f.count q > 0 →
        (∀ j f2, j < i → page.frames.get? j = some f2 → f2.count q = 0) →
        resolveLocator page a = some ⟨i + 1, q, true⟩) ∧
      (page.main.count q = 0 → (∀ f ∈ page.frames, f.count q = 0) →
        resolveLocator page a = Option.none)) := by
  constructor
  · intro h
    unfold resolveLocator
    rw [if_pos h]
  · intro q hq
    have hmk : ∀ f, makeInFrame f a = some q := by
      intro f
      rcases hq with ⟨h, hqe⟩ | ⟨h, hqe⟩
      · subst hqe
        unfold makeInFrame
        rw [h]
      · subst hqe
        unfold makeInFrame
        rw [h]
    have hne : ¬ a.selectorType = some SelectorType.none := by
      rcases hq with ⟨h, _⟩ | ⟨h, _⟩ <;> (rw [h]; simp)
    refine ⟨?_, ?_, ?_⟩
    · intro hc
      unfold resolveLocator
      rw [if_neg hne]
      simp [tryFrameLocator, hmk page.main, hc]
    · intro i f hm hg hc hz
      unfold resolveLocator
      rw [if_neg hne]
      simp [tryFrameLocator, hmk page.main, hm]
      rw [scanFrames_first_hit a q hmk page.frames 1 i f hg hc hz,
        Nat.add_comm 1 i]
    · intro hm hz
      unfold resolveLocator
      rw [if_neg hne]
      simp [tryFrameLocator, hmk page.main, hm]
      exact scanFrames_all_zero a q hmk page.frames 1 hz

/-- Witness for C7 (amended): a selector kind none action resolves to
null; a css action whose selector matches in the main frame resolves to
the direct locator at frame index 0; on a page whose main frame and first
sub-frame match nothing and whose second sub-frame matches, the same
action resolves to the direct locator at frame index 2; and on a page
with two sub-frames where nothing matches anywhere it resolves to
null. -/
theorem resolveLocator_none_css_xpath_behavior_witness :
    resolveLocator emptyPage actReloadNone = Option.none ∧
    resolveLocator pageWithX actClickCss = some ⟨0, "#x", true⟩ ∧
    resolveLocator pageSubFrameHit actClickCss = some ⟨2, "#x", true⟩ ∧
    resolveLocator pageAllEmpty actClickCss = Option.none :=
  ⟨(resolveLocator_none_css_xpath_behavior emptyPage actReloadNone).1 rfl,
   ((resolveLocator_none_css_xpath_behavior pageWithX actClickCss).2 "#x"
      (Or.inl ⟨rfl, rfl⟩)).1 (by decide),
   ((resolveLocator_none_css_xpath_behavior pageSubFrameHit actClickCss).2 "#x"
      (Or.inl ⟨rfl, rfl⟩)).2.1 1 frameWithX rfl rfl (by decide)
      (by
        intro j f2 hj hgj
        have hj0 : j = 0 := by omega
        subst hj0
        have he : emptyFrame = f2 := Option.some.inj hgj
        subst he
        rfl),
   ((resolveLocator_none_css_xpath_behavior pageAllEmpty actClickCss).2 "#x"
      (Or.inl ⟨rfl, rfl⟩)).2.2 rfl
      (by
        intro f hf
        simp [pageAllEmpty] at hf
        subst hf
        rfl)⟩

set_option maxRecDepth 100000 in
set_option maxHeartbeats 1000000 in
/-- Counterexample for C6 as frozen: stripVague is not idempotent. In
the command check-the-page-verify-page the check-page pattern (pattern 5)
runs before the verify-page pattern (pattern 6), so the first application
only removes the verify-page ending and leaves check-the-page, which a
second application removes as well. -/
theorem stripVague_not_idempotent_counterexample :
    stripVague "check the page verify page" = "check the page" ∧
    stripVague (stripVague "check the page verify page") ≠
      stripVague "check the page verify page" := by
  constructor
  · decide
  · decide

set_option maxRecDepth 100000 in
set_option maxHeartbeats 4000000 in
/-- C6 (amended): stripVague is not idempotent, and the fixed one-pass
pattern order means removals can expose earlier-ordered phrases that a
single application then misses (see the counterexample). What does hold,
and is proved here exactly for these inputs, is the per-ending behaviour
on the sixteen minimal and full instantiations of the eight ending
patterns (each a member of its pattern's phrase set): every such phrase
alone strips to the empty string; the vague-phrase-free command written
click-Login-then followed by any of them strips to that command alone;
and a second application of stripVague leaves each of those results
unchanged. -/
theorem stripVague_removes_endings_idempotent_on_them :
    ((vagueMinimal ++ vagueCanonical).all (fun p =>
      vagueEndingPatterns.any (fun exps => exps.contains p)) = true) ∧
    (∀ p ∈ vagueMinimal ++ vagueCanonical,
      stripVague p = "" ∧ stripVague (stripVague p) = stripVague p) ∧
    (∀ p ∈ vagueMinimal ++ vagueCanonical,
      stripVague ("click Login then " ++ p) = "click Login then" ∧
      stripVague (stripVague ("click Login then " ++ p)) =
        stripVague ("click Login then " ++ p)) := by
  have hall : ((vagueMinimal ++ vagueCanonical).all (fun p =>
      stripVague p == "")) = true := by decide
  have hcan : ((vagueMinimal ++ vagueCanonical).all (fun p =>
      stripVague ("click Login then " ++ p) == "click Login then")) = true := by decide
  have hfix : stripVague "click Login then" = "click Login then" := by decide
  refine ⟨by decide, ?_, ?_⟩
  · intro p hp
    have h2 := List.all_eq_true.1 hall p hp
    have he : stripVague p = "" := by simpa using h2
    refine ⟨he, ?_⟩
    rw [he]
    decide
  · intro p hp
    have h2 := List.all_eq_true.1 hcan p hp
    have he : stripVague ("click Login then " ++ p) = "click Login then" := by
      simpa using h2
    refine ⟨he, ?_⟩
    rw [he, hfix]

/-- Witness for C6 (amended): the single phrase verify page strips to the
empty string idempotently, and a command ending in the full
check-the-page-is-ok phrase strips to the command alone, idempotently. -/
theorem stripVague_removes_endings_idempotent_on_them_witness :
    (stripVague "verify page" = "" ∧
      stripVague (stripVague "verify page") = stripVague "verify page") ∧
    (stripVague ("click Login then " ++ "check the page is ok") = "click Login then" ∧
      stripVague (stripVague ("click Login then " ++ "check the page is ok")) =
        stripVague ("click Login then " ++ "check the page is ok")) :=
  ⟨stripVague_removes_endings_idempotent_on_them.2.1 "verify page" (by decide),
   stripVague_removes_endings_idempotent_on_them.2.2 "check the page is ok" (by decide)⟩
